import Mathlib

/-!
Shallow embedding of the maker-checker workflow engine of
`central-workflow` (backend/workflow). The definitions below are
translated from the TypeScript source:

* `src/backend/workflow/src/services/workflow.service.ts`
  (`WorkflowService.createAction`, `WorkflowService.getActionById`,
  `WorkflowService.reviewAction`),
* `src/backend/workflow/src/handlers/action-handler.factory.ts`
  (`ActionHandlerFactory`),
* `src/backend/workflow/src/handlers/base.handler.ts` (`ActionHandler`),
* the concrete handlers (`CreateUserHandler`, `CreatePromotionHandler`),
* the zod validators (`reviewActionSchema`, `createPromotionSchema`)
  from `src/validators/workflow.validator.ts`,
* the drizzle schema `src/backend/workflow/src/db/schema/workflow-actions.ts`.

Database rows live in explicit state records; each `await` of the source
is a sequencing point, and the service methods are modelled as functions
from state to result-and-state. Errors thrown by the source are the
`Except.error` branch, with the error kinds named after the taxonomy the
throw sites correspond to (unknown action type, validation, not-found,
already-decided, self-review, execution).
-/

namespace CentralWorkflow

/-- Enum `ActionStatus` from `src/types/workflow.type.ts`:
`pending | approved | rejected`. -/
inductive ActionStatus where
  | pending
  | approved
  | rejected
deriving DecidableEq, Repr

/-- A row of the `workflow_actions` table
(`src/db/schema/workflow-actions.ts`). Timestamps are naturals, ids and
actor ids are strings, the payload type `P` is a parameter (the column is
`jsonb` and the engine treats it opaquely). -/
structure WorkflowAction (P : Type) where
  id : String
  actionType : String
  status : ActionStatus
  payload : P
  makerId : String
  checkerId : Option String
  reviewComment : Option String
  reviewedAt : Option Nat
  createdAt : Nat
  updatedAt : Nat
deriving DecidableEq, Repr

/-- The `ActionHandler` interface from `src/handlers/base.handler.ts`.
`validate(payload)` either succeeds or throws (a validation failure
message); `execute(db, payload)` reads and writes the business tables
(state `B`), returning a created entity `R`, or throws an execution
failure message. -/
structure ActionHandler (P B R : Type) where
  validate : P → Except String Unit
  execute : B → P → Except String (R × B)

/-- The static `handlers` record of `ActionHandlerFactory`
(`src/handlers/action-handler.factory.ts`): a JS object keyed by action
type, modelled as an association list in key-insertion order. -/
abbrev HandlerMap (P B R : Type) : Type := List (String × ActionHandler P B R)

/-- The structured error taxonomy realised by the throw sites of the
service and handlers: `UnknownActionTypeError`, `ValidationError`,
`NotFoundError`, `AlreadyDecidedError`, `SelfReviewError`,
`ExecutionError`. -/
inductive WfError where
  | unknownActionType (actionType : String)
  | validationError (message : String)
  | notFound (actionId : String)
  | alreadyDecided (status : ActionStatus)
  | selfReview
  | executionError (message : String)
deriving DecidableEq, Repr

/-- Method `ActionHandlerFactory.getHandler`: look the action type up in the
static map; throw `No handler found for action type` when absent. -/
def getHandler {P B R : Type} (handlers : HandlerMap P B R) (actionType : String) :
    Except WfError (ActionHandler P B R) :=
  match handlers.find? (fun e => e.1 = actionType) with
  | some e => .ok e.2
  | none => .error (.unknownActionType actionType)

/-- Method `ActionHandlerFactory.registerHandler`: `this.handlers[actionType] =
handler` — overwrites the binding in place when the key exists, appends a
new binding otherwise (JS object key semantics). -/
def registerHandler {P B R : Type} (handlers : HandlerMap P B R) (actionType : String)
    (handler : ActionHandler P B R) : HandlerMap P B R :=
  if handlers.any (fun e => e.1 = actionType) then
    handlers.map (fun e => if e.1 = actionType then (e.1, handler) else e)
  else
    handlers ++ [(actionType, handler)]

/-- Method `ActionHandlerFactory.getAllActionTypes`: `Object.keys(this.handlers)`. -/
def getAllActionTypes {P B R : Type} (handlers : HandlerMap P B R) : List String :=
  handlers.map (fun e => e.1)

/-- The database visible to the engine: the `workflow_actions` table plus
the business tables `B` that handlers write (users / accounts /
promotions). -/
structure EngineState (P B : Type) where
  actions : List (WorkflowAction P)
  biz : B
deriving DecidableEq, Repr

/-- Method `WorkflowService.getActionById`, minus the throw: drizzle
`findFirst({where: eq(workflowActions.id, actionId)})`. -/
def findAction {P : Type} (actions : List (WorkflowAction P)) (actionId : String) :
    Option (WorkflowAction P) :=
  actions.find? (fun a => a.id = actionId)

/-- The `.set({...})` object of the drizzle update of `reviewAction`: exactly
the five columns `status`, `checkerId`, `reviewComment`, `reviewedAt`,
`updatedAt` are assigned; all other columns of the row are untouched. -/
def applyReviewSet {P : Type} (checkerId : String) (status : ActionStatus)
    (reviewComment : Option String) (now : Nat) (a : WorkflowAction P) : WorkflowAction P :=
  { a with
    status := status
    checkerId := some checkerId
    reviewComment := reviewComment
    reviewedAt := some now
    updatedAt := now }

/-- The drizzle `update(...).where(eq(workflowActions.id, actionId))`:
apply the set-clause to every row whose `id` matches (the `where` clause
tests the id only — it does not require `status = PENDING`). -/
def updateWhereId {P : Type} (actions : List (WorkflowAction P)) (actionId : String)
    (f : WorkflowAction P → WorkflowAction P) : List (WorkflowAction P) :=
  actions.map (fun a => if a.id = actionId then f a else a)

/-- Method `WorkflowService.createAction(actionType, payload, makerId)`:
resolve the handler (throws when unknown), `await handler.validate`
(throws on invalid payload), then insert a new row with `status:
PENDING`. `now` stands for the row timestamps and `newId` for the
generated uuid. The state is returned unchanged on every error path. -/
def createAction {P B R : Type} (handlers : HandlerMap P B R) (st : EngineState P B)
    (actionType : String) (payload : P) (makerId : String) (now : Nat) (newId : String) :
    Except WfError (WorkflowAction P) × EngineState P B :=
  match getHandler handlers actionType with
  | .error e => (.error e, st)
  | .ok handler =>
    match handler.validate payload with
    | .error msg => (.error (.validationError msg), st)
    | .ok _ =>
      let action : WorkflowAction P :=
        { id := newId
          actionType := actionType
          status := .pending
          payload := payload
          makerId := makerId
          checkerId := none
          reviewComment := none
          reviewedAt := none
          createdAt := now
          updatedAt := now }
      (.ok action, { st with actions := st.actions ++ [action] })

/-- Method `WorkflowService.reviewAction(actionId, checkerId, status,
reviewComment)` run without interference (each `await` completes before
the next request is served). Fetch the row (`NotFoundError` if absent);
throw `AlreadyDecidedError` when `status !== PENDING`; throw
`SelfReviewError` when `makerId === checkerId`; run the unconditional
update; when approving, resolve the handler for the `actionType` of the FETCHED
row and `execute(db, action.payload)`. An `execute` failure
propagates as `ExecutionError` while the already-committed update stays
in the state. -/
def reviewAction {P B R : Type} (handlers : HandlerMap P B R) (st : EngineState P B)
    (actionId checkerId : String) (status : ActionStatus) (reviewComment : Option String)
    (now : Nat) :
    Except WfError (WorkflowAction P × Option R) × EngineState P B :=
  match findAction st.actions actionId with
  | none => (.error (.notFound actionId), st)
  | some action =>
    if action.status ≠ .pending then
      (.error (.alreadyDecided action.status), st)
    else if action.makerId = checkerId then
      (.error .selfReview, st)
    else
      let updatedAction := applyReviewSet checkerId status reviewComment now action
      let setClause := applyReviewSet (P := P) checkerId status reviewComment now
      let st1 : EngineState P B :=
        { st with actions := updateWhereId st.actions actionId setClause }
      if status = .approved then
        match getHandler handlers action.actionType with
        | .error e => (.error e, st1)
        | .ok handler =>
          match handler.execute st1.biz action.payload with
          | .error msg => (.error (.executionError msg), st1)
          | .ok (r, biz2) => (.ok (updatedAction, some r), { st1 with biz := biz2 })
      else
        (.ok (updatedAction, none), st1)

/-- The `reviewActionSchema` zod object of
`src/validators/workflow.validator.ts`, applied by
`WorkflowController.reviewAction` before calling the service:
`status` an enum of `approved` and `rejected`, `checkerId:
z.string().min(1)`, `reviewComment: z.string().optional()` — note that no
constraint ties `reviewComment` to the decision. -/
def reviewActionSchemaOk (status : ActionStatus) (checkerId : String) : Bool :=
  (status == .approved || status == .rejected) && (1 ≤ checkerId.length)

/-! ### Interleaved executions of `reviewAction`

The server handles requests concurrently; within one `reviewAction` call
the database is touched at three `await` points: the fetch
(`getActionById`), the update, and (on approval) `handler.execute`. The
step machine below is `reviewAction` cut at exactly those points, so that
two in-flight calls can interleave between them. Running the steps of one call
back-to-back reproduces `reviewAction` (lemma
`reviewSteps_eq_reviewAction` below). -/

/-- The arguments of one in-flight `reviewAction` call. -/
structure ReviewArgs where
  actionId : String
  checkerId : String
  status : ActionStatus
  reviewComment : Option String
  now : Nat
deriving DecidableEq, Repr

/-- The progress of one in-flight `reviewAction` call: before the fetch,
after the fetch (holding the row it read), after the update (holding the
fetched snapshot and the row the update returned), or finished. -/
inductive ReviewPhase (P R : Type) where
  | start
  | fetched (action : WorkflowAction P)
  | updated (action updatedAction : WorkflowAction P)
  | done (result : Except WfError (WorkflowAction P × Option R))
deriving Repr

/-- One database round-trip of `reviewAction`. From `start`: fetch the
row and run the synchronous checks (not-found / already-decided /
self-review). From `fetched`: run the update — its `where` clause matches
the id only, so it overwrites whatever the row holds NOW — and, when
rejecting, finish. From `updated` (approval): resolve the handler and run
`execute` on the business state as it is now. A `done` call is inert. -/
def reviewStep {P B R : Type} (handlers : HandlerMap P B R) (args : ReviewArgs)
    (st : EngineState P B) (phase : ReviewPhase P R) : EngineState P B × ReviewPhase P R :=
  match phase with
  | .start =>
    match findAction st.actions args.actionId with
    | none => (st, .done (.error (.notFound args.actionId)))
    | some action =>
      if action.status ≠ .pending then
        (st, .done (.error (.alreadyDecided action.status)))
      else if action.makerId = args.checkerId then
        (st, .done (.error .selfReview))
      else
        (st, .fetched action)
  | .fetched action =>
    let setClause := applyReviewSet (P := P) args.checkerId args.status args.reviewComment args.now
    let st1 : EngineState P B :=
      { st with actions := updateWhereId st.actions args.actionId setClause }
    match findAction st1.actions args.actionId with
    | none => (st1, .done (.error (.notFound args.actionId)))
    | some updatedAction =>
      if args.status = .approved then
        (st1, .updated action updatedAction)
      else
        (st1, .done (.ok (updatedAction, none)))
  | .updated action updatedAction =>
    match getHandler handlers action.actionType with
    | .error e => (st, .done (.error e))
    | .ok handler =>
      match handler.execute st.biz action.payload with
      | .error msg => (st, .done (.error (.executionError msg)))
      | .ok (r, biz2) => ({ st with biz := biz2 }, .done (.ok (updatedAction, some r)))
  | .done r => (st, .done r)

/-- Interleave two in-flight `reviewAction` calls `a` and `b`: each
schedule entry lets the named call take its next database round-trip. -/
def runTwo {P B R : Type} (handlers : HandlerMap P B R) (a b : ReviewArgs)
    (schedule : List Bool) (s : EngineState P B × ReviewPhase P R × ReviewPhase P R) :
    EngineState P B × ReviewPhase P R × ReviewPhase P R :=
  match schedule with
  | [] => s
  | c :: rest =>
    if c then
      let (st1, pa1) := reviewStep handlers a s.1 s.2.1
      runTwo handlers a b rest (st1, pa1, s.2.2)
    else
      let (st1, pb1) := reviewStep handlers b s.1 s.2.2
      runTwo handlers a b rest (st1, s.2.1, pb1)

/-! ### Concrete handlers -/

/-- Structure `CreateUserPayload` from `src/types/workflow.type.ts`. -/
structure CreateUserPayload where
  email : String
  username : String
  fullName : String
deriving DecidableEq, Repr

/-- A row of the `users` table, as written by `CreateUserHandler.execute`. -/
structure User where
  email : String
  username : String
  fullName : String
  password : String
deriving DecidableEq, Repr

/-- The hard-coded bcrypt hash that `CreateUserHandler.execute`
(`src/handlers/create-user.handler.ts`) stores as the `password` column
of every user it inserts. -/
def defaultPasswordHash : String :=
  "$2b$10$4cXn4kdl6v36ARMmUZ0nvOCBGGUKtWk5X.lZRsXWLn/GgQFqaTGRe"

/-- Method `CreateUserHandler.execute`: findFirst on `users.email` (throw
`already exists` on a hit), findFirst on `users.username` (throw
`already taken` on a hit), then insert the new user whose `password` is
the hard-coded hash. Its `validate` delegates to
`createUserSchema.safeParse`; the engine-level theorems quantify over it,
so it is abstracted here as a parameter. -/
def createUserExecute (db : List User) (p : CreateUserPayload) :
    Except String (User × List User) :=
  if db.any (fun u => u.email = p.email) then
    .error ("User with email " ++ p.email ++ " already exists")
  else if db.any (fun u => u.username = p.username) then
    .error ("Username " ++ p.username ++ " is already taken")
  else
    let newUser : User :=
      { email := p.email
        username := p.username
        fullName := p.fullName
        password := defaultPasswordHash }
    .ok (newUser, db ++ [newUser])

/-- Handler `CreateUserHandler` as an `ActionHandler`, with its zod `validate`
abstracted (`validateFn`) — the claims below depend only on `execute`. -/
def createUserHandler (validateFn : CreateUserPayload → Except String Unit) :
    ActionHandler CreateUserPayload (List User) User :=
  { validate := validateFn
    execute := createUserExecute }

/-- Structure `CreatePromotionPayload` from `src/types/workflow.type.ts`. -/
structure CreatePromotionPayload where
  code : String
  name : String
  description : Option String
  discountType : String
  discountValue : String
  startDate : String
  endDate : String
deriving DecidableEq, Repr

/-- The regex `^\d+(\.\d\x7b1,2\x7d)?$` that `createPromotionSchema`
applies to `discountValue`: one or more digits, optionally followed by a
dot and one or two digits. -/
def isDecimalString (s : String) : Bool :=
  match s.splitOn "." with
  | [whole] => !whole.isEmpty && whole.all Char.isDigit
  | [whole, frac] =>
    !whole.isEmpty && whole.all Char.isDigit
      && (frac.length == 1 || frac.length == 2) && frac.all Char.isDigit
  | _ => false

/-- The JavaScript primitives that `CreatePromotionHandler.validate`
relies on and whose exact behaviour the claims do not depend on:
`z.string().datetime()` (ISO-8601 format check), `new Date(s)` (parse to
a millisecond timestamp, totally ordered), and `parseFloat`. The
theorems below hold for every interpretation of these. -/
structure JsPrims where
  isDatetime : String → Bool
  parseDate : String → Int
  parseFloat : String → ℚ

/-- Schema `createPromotionSchema` from `src/validators/workflow.validator.ts`:
`code` at least 3 characters, `name` at least 1, `description` optional,
`discountType` in `percentage | fixed`, `discountValue` matching the
decimal regex, `startDate` and `endDate` in datetime format. -/
def createPromotionSchemaOk (J : JsPrims) (p : CreatePromotionPayload) : Bool :=
  (3 ≤ p.code.length) && (1 ≤ p.name.length)
    && (p.discountType == "percentage" || p.discountType == "fixed")
    && isDecimalString p.discountValue
    && J.isDatetime p.startDate && J.isDatetime p.endDate

/-- Method `CreatePromotionHandler.validate`
(`src/handlers/create-promotion.handler.ts`): `safeParse` against the
schema (throw its message on failure), then the business checks in
source order — `endDate <= startDate`, percentage discount outside
`[0, 100]`, fixed discount negative. Pure: it takes no database and
returns only a verdict. -/
def createPromotionValidate (J : JsPrims) (p : CreatePromotionPayload) :
    Except String Unit :=
  if !createPromotionSchemaOk J p then
    .error "Validation failed: createPromotionSchema"
  else
    let startDate := J.parseDate p.startDate
    let endDate := J.parseDate p.endDate
    if endDate ≤ startDate then
      .error "End date must be after start date"
    else
      let discountValue := J.parseFloat p.discountValue
      if p.discountType == "percentage" && (discountValue < 0 || 100 < discountValue) then
        .error "Percentage discount must be between 0 and 100"
      else if p.discountType == "fixed" && discountValue < 0 then
        .error "Fixed discount cannot be negative"
      else
        .ok ()

/-! ### Concrete fixtures

Small closed instances used by the counterexample and witness theorems:
a pending `create_user` action (Scenario A/B of the spec), a handler map
holding the create-user handler, and a business state already containing
a user with the same email (so `execute` fails as in Scenario B). -/

/-- The payload of Scenario A: `{email: "a@x.com", username: "alice"}`. -/
def sampleUserPayload : CreateUserPayload :=
  { email := "a@x.com", username := "alice", fullName := "Alice A" }

/-- A pending `create_user` action submitted by maker `m1`. -/
def samplePendingAction : WorkflowAction CreateUserPayload :=
  { id := "a1"
    actionType := "create_user"
    status := .pending
    payload := sampleUserPayload
    makerId := "m1"
    checkerId := none
    reviewComment := none
    reviewedAt := none
    createdAt := 1
    updatedAt := 1 }

/-- A handler map holding the create-user handler (validate accepting). -/
def sampleHandlers : HandlerMap CreateUserPayload (List User) User :=
  [("create_user", createUserHandler (fun _ => .ok ()))]

/-- A users table that already contains `a@x.com`, so that executing the
pending action fails with the duplicate-email `ExecutionError`
(Scenario B). -/
def dupEmailState : EngineState CreateUserPayload (List User) :=
  { actions := [samplePendingAction]
    biz := [{ email := "a@x.com", username := "bob", fullName := "Bob B",
              password := defaultPasswordHash }] }

/-- The run of the failing input of claim C1: approving the pending action
while its email already exists in the users table. -/
def dupEmailApproveRun :
    Except WfError (WorkflowAction CreateUserPayload × Option User)
      × EngineState CreateUserPayload (List User) :=
  reviewAction sampleHandlers dupEmailState "a1" "c1" .approved none 2

/-- A pending action with an opaque payload, for claims that do not
touch handlers (the engine treats the payload opaquely). -/
def pendingUnitAction : WorkflowAction Unit :=
  { id := "a1"
    actionType := "create_user"
    status := .pending
    payload := ()
    makerId := "m1"
    checkerId := none
    reviewComment := none
    reviewedAt := none
    createdAt := 1
    updatedAt := 1 }

/-- State holding only `pendingUnitAction`. -/
def pendingUnitState : EngineState Unit Unit :=
  { actions := [pendingUnitAction], biz := () }

/-- No handlers at all — the reject path never resolves one. -/
def noHandlers : HandlerMap Unit Unit Unit := []

/-- The failing schedule of claim C2: two reject calls by different checkers
on the same pending action, interleaved fetch-A, fetch-B, update-A,
update-B (the time-of-check-to-time-of-use race of the unconditional
update). -/
def racedRejects : EngineState Unit Unit × ReviewPhase Unit Unit × ReviewPhase Unit Unit :=
  runTwo noHandlers
    { actionId := "a1", checkerId := "c1", status := .rejected,
      reviewComment := some "dup", now := 5 }
    { actionId := "a1", checkerId := "c2", status := .rejected,
      reviewComment := some "bad", now := 6 }
    [true, false, true, false]
    (pendingUnitState, .start, .start)

/-- A state whose only action is already decided (`APPROVED` by `c1`). -/
def decidedUnitState : EngineState Unit Unit :=
  { actions := [{ pendingUnitAction with status := .approved, checkerId := some "c1" }]
    biz := () }

/-- A handler map whose create-user handler rejects every payload (used
to instantiate the validation-failure branch of submission). -/
def rejectingHandlers : HandlerMap CreateUserPayload (List User) User :=
  [("create_user", createUserHandler (fun _ => .error "Validation failed"))]

/-- The user that executing `samplePendingAction` against an empty users
table inserts. -/
def sampleCreatedUser : User :=
  { email := "a@x.com", username := "alice", fullName := "Alice A",
    password := defaultPasswordHash }

/-- Empty store and empty users table. -/
def emptyUserState : EngineState CreateUserPayload (List User) :=
  { actions := [], biz := [] }

/-- The pending Scenario-A action over an empty users table (so approval
succeeds). -/
def pendingUserState : EngineState CreateUserPayload (List User) :=
  { actions := [samplePendingAction], biz := [] }

/-! ### Helper lemmas -/

/-- Looking an id up after the id-keyed update returns the updated row,
provided the update clause leaves the id column alone. -/
lemma findAction_updateWhereId {P : Type} (actions : List (WorkflowAction P))
    (actionId : String) (f : WorkflowAction P → WorkflowAction P)
    (hf : ∀ a, (f a).id = a.id) :
    findAction (updateWhereId actions actionId f) actionId
      = (findAction actions actionId).map f := by
  induction actions with
  | nil => rfl
  | cons hd tl ih =>
    by_cases hid : hd.id = actionId
    · simp [findAction, updateWhereId, List.find?, hid, hf]
    · simpa [findAction, updateWhereId, List.find?, hid, hf] using ih

/-- The review update writes only the five reviewed columns: the id is
untouched. -/
lemma applyReviewSet_id {P : Type} (checkerId : String) (status : ActionStatus)
    (rc : Option String) (now : Nat) (a : WorkflowAction P) :
    (applyReviewSet checkerId status rc now a).id = a.id := rfl

/-- In-place overwrite of a bound key: the lookup after the overwrite
yields the new handler. -/
lemma find?_overwrite {P B R : Type} (m : HandlerMap P B R) (t : String)
    (h : ActionHandler P B R) (hany : m.any (fun e => e.1 = t) = true) :
    (m.map (fun e => if e.1 = t then (e.1, h) else e)).find? (fun e => e.1 = t)
      = some (t, h) := by
  induction m with
  | nil => simp at hany
  | cons hd tl ih =>
    by_cases hhd : hd.1 = t
    · simp [List.find?, hhd]
    · have htl : tl.any (fun e => e.1 = t) = true := by simpa [hhd] using hany
      simpa [List.find?, hhd] using ih htl

/-- Appending a fresh binding: the lookup finds it past the misses. -/
lemma find?_append_missing {P B R : Type} (m : HandlerMap P B R) (t : String)
    (h : ActionHandler P B R) (hany : m.any (fun e => e.1 = t) = false) :
    (m ++ [(t, h)]).find? (fun e => e.1 = t) = some (t, h) := by
  induction m with
  | nil => simp [List.find?]
  | cons hd tl ih =>
    simp only [List.any_cons, Bool.or_eq_false_iff, decide_eq_false_iff_not] at hany
    simpa [List.find?, hany.1] using ih (by simpa using hany.2)

/-- Looking up a key right after `registerHandler` bound it yields the
new handler, whether or not the key was bound before. -/
lemma find?_registerHandler {P B R : Type} (m : HandlerMap P B R) (t : String)
    (h : ActionHandler P B R) :
    (registerHandler m t h).find? (fun e => e.1 = t) = some (t, h) := by
  unfold registerHandler
  by_cases hany : m.any (fun e => e.1 = t) = true
  · rw [if_pos hany]; exact find?_overwrite m t h hany
  · rw [if_neg hany]
    exact find?_append_missing m t h (Bool.not_eq_true _ ▸ hany)

/-- Replacing the `execute` of every handler leaves the key structure and the
`validate` components of a lookup unchanged. -/
lemma find?_map_handlers {P B R : Type} (handlers : HandlerMap P B R) (t : String)
    (g : String × ActionHandler P B R → ActionHandler P B R) :
    (handlers.map (fun e => (e.1, g e))).find? (fun e => e.1 = t)
      = (handlers.find? (fun e => e.1 = t)).map (fun e => (e.1, g e)) := by
  induction handlers with
  | nil => rfl
  | cons hd tl ih => by_cases hhd : hd.1 = t <;> simp [List.find?, hhd, ih]

/-- Inversion of a successful `reviewAction` run: the row was fetched
`PENDING`, the checker differs from the maker, the returned row is the
fetched row with the review set-clause applied, the actions table got
exactly that update, and on approval the handler ran on the fetched
payload. -/
lemma reviewAction_ok_inv {P B R : Type} {handlers : HandlerMap P B R}
    {st : EngineState P B} {actionId checkerId : String} {status : ActionStatus}
    {rc : Option String} {now : Nat} {rec : WorkflowAction P} {res : Option R}
    {st1 : EngineState P B}
    (hrun : reviewAction handlers st actionId checkerId status rc now = (.ok (rec, res), st1)) :
    ∃ a, findAction st.actions actionId = some a ∧ a.status = .pending ∧
      a.makerId ≠ checkerId ∧
      rec = applyReviewSet checkerId status rc now a ∧
      st1.actions = updateWhereId st.actions actionId (applyReviewSet checkerId status rc now) ∧
      ((status = .approved ∧ ∃ handler r, getHandler handlers a.actionType = .ok handler ∧
          res = some r ∧ handler.execute st.biz a.payload = .ok (r, st1.biz))
        ∨ (status ≠ .approved ∧ res = none ∧ st1.biz = st.biz)) := by
  obtain ⟨acts1, biz1⟩ := st1
  unfold reviewAction at hrun
  split at hrun
  · simp at hrun
  · rename_i a hfind
    dsimp only at hrun
    split at hrun
    · simp at hrun
    · rename_i hpend
      rw [not_not] at hpend
      split at hrun
      · simp at hrun
      · rename_i hself
        split at hrun
        · rename_i happ
          split at hrun
          · simp at hrun
          · rename_i handler hget
            split at hrun
            · simp at hrun
            · rename_i r biz2 hex
              simp only [Prod.mk.injEq, Except.ok.injEq, EngineState.mk.injEq] at hrun
              obtain ⟨⟨hrec, hres⟩, hacts, hbiz⟩ := hrun
              exact ⟨a, hfind, hpend, hself, hrec.symm, hacts.symm,
                Or.inl ⟨happ, handler, r, hget, hres.symm, by rw [← hbiz]; exact hex⟩⟩
        · rename_i happ
          simp only [Prod.mk.injEq, Except.ok.injEq, EngineState.mk.injEq] at hrun
          obtain ⟨⟨hrec, hres⟩, hacts, hbiz⟩ := hrun
          exact ⟨a, hfind, hpend, hself, hrec.symm, hacts.symm,
            Or.inr ⟨happ, hres.symm, hbiz.symm⟩⟩

/-- Sanity check tying the two models together: running the three
database round-trips back-to-back (no interference) is exactly the
sequential `reviewAction`. -/
lemma reviewSteps_eq_reviewAction {P B R : Type} (handlers : HandlerMap P B R)
    (args : ReviewArgs) (st : EngineState P B) :
    (let s1 := reviewStep (R := R) handlers args st .start
     let s2 := reviewStep handlers args s1.1 s1.2
     reviewStep handlers args s2.1 s2.2)
      = ((reviewAction handlers st args.actionId args.checkerId args.status
            args.reviewComment args.now).2,
         .done (reviewAction (R := R) handlers st args.actionId args.checkerId args.status
            args.reviewComment args.now).1) := by
  unfold reviewAction reviewStep
  cases hfind : findAction st.actions args.actionId with
  | none => simp [hfind, reviewStep]
  | some a =>
    by_cases hpend : a.status = .pending
    · by_cases hself : a.makerId = args.checkerId
      · simp [hfind, hpend, hself, reviewStep]
      · have hupd : findAction
            (updateWhereId st.actions args.actionId
              (applyReviewSet args.checkerId args.status args.reviewComment args.now))
            args.actionId
            = some (applyReviewSet args.checkerId args.status args.reviewComment args.now a) := by
          rw [findAction_updateWhereId _ _ _ (fun b => applyReviewSet_id _ _ _ _ b), hfind]
          rfl
        by_cases happ : args.status = .approved
        · have hupd2 := hupd
          rw [happ] at hupd2
          cases hget : getHandler handlers a.actionType with
          | error e => simp [hfind, hpend, hself, happ, reviewStep, hupd2, hget]
          | ok handler =>
            cases hex : handler.execute st.biz a.payload with
            | error msg => simp [hfind, hpend, hself, happ, reviewStep, hupd2, hget, hex]
            | ok pr => simp [hfind, hpend, hself, happ, reviewStep, hupd2, hget, hex]
        · simp [hfind, hpend, hself, happ, reviewStep, hupd]
    · simp [hfind, hpend, reviewStep]

/-! ### Claims -/

/-- C1: the spec requires that an approval whose `execute` fails must
not leave the record `APPROVED` (roll back to `PENDING` or record a
distinct failed outcome). The code commits the unconditional status
update BEFORE running the handler and has no rollback: on Scenario B of the spec itself (approving a `create_user` action whose email already
exists), `reviewAction` throws the duplicate-email `ExecutionError`, yet
the stored record ends with `status = APPROVED`. -/
theorem c1_approved_retained_after_execution_failure :
    dupEmailApproveRun.1
        = .error (.executionError "User with email a@x.com already exists")
      ∧ (findAction dupEmailApproveRun.2.actions "a1").map (fun a => a.status)
        = some .approved :=
  ⟨rfl, rfl⟩

/-- C2: the spec requires the `PENDING → decided` transition to be
claimed by an atomic conditional update so that of N concurrent decide
calls exactly one succeeds and the rest fail `AlreadyDecidedError`. The
code instead does fetch-check-then-unconditional-update (`WHERE id = ?`
with no status condition): under the interleaving fetch-A, fetch-B,
update-A, update-B of two reject calls on the same pending action, BOTH
calls finish successfully (neither sees `AlreadyDecidedError`) and the
second silently overwrites the first decision (final checker `c2`). -/
theorem c2_raced_decides_both_succeed :
    racedRejects.2.1
        = .done (.ok (applyReviewSet "c1" .rejected (some "dup") 5 pendingUnitAction, none))
      ∧ racedRejects.2.2
        = .done (.ok (applyReviewSet "c2" .rejected (some "bad") 6
            (applyReviewSet "c1" .rejected (some "dup") 5 pendingUnitAction), none))
      ∧ (findAction racedRejects.1.actions "a1").map (fun a => a.checkerId)
        = some (some "c2") :=
  ⟨rfl, rfl, rfl⟩

/-- C3 counterexample: the claim says a REJECT with an empty or absent
comment fails with `ValidationError` and the action is not rejected.
Neither the controller schema (`reviewComment: z.string().optional()`)
nor the service checks the comment: rejecting the pending action `a1`
with NO comment succeeds and the stored record ends `REJECTED`. -/
theorem c3_reject_without_comment_succeeds_cx :
    (reviewAction noHandlers pendingUnitState "a1" "c1" .rejected none 7).1
        = .ok (applyReviewSet "c1" .rejected none 7 pendingUnitAction, none)
      ∧ (findAction (reviewAction noHandlers pendingUnitState "a1" "c1"
            .rejected none 7).2.actions "a1").map (fun a => a.status)
        = some .rejected :=
  ⟨rfl, rfl⟩

/-- C3 amended: `reviewAction` performs no comment validation at all — a
REJECT on a pending action by a non-maker checker succeeds and finalizes
the record `REJECTED` for EVERY comment value (absent, empty, or
non-empty alike); no `ValidationError` is raised for a missing
comment. -/
theorem c3_reject_ignores_comment {P B R : Type} (handlers : HandlerMap P B R)
    (st : EngineState P B) (actionId checkerId : String) (comment : Option String)
    (now : Nat) (a : WorkflowAction P)
    (hfind : findAction st.actions actionId = some a)
    (hpend : a.status = .pending)
    (hne : a.makerId ≠ checkerId) :
    reviewAction (R := R) handlers st actionId checkerId .rejected comment now
      = (.ok (applyReviewSet checkerId .rejected comment now a, none),
         { st with actions := (updateWhereId st.actions actionId
             (applyReviewSet checkerId .rejected comment now)) }) := by
  unfold reviewAction
  rw [hfind]
  simp [hpend, hne]

/-- C3 amended, witness: rejecting the concrete pending action `a1` with
an absent comment. -/
theorem c3_reject_ignores_comment_witness :
    reviewAction noHandlers pendingUnitState "a1" "c1" .rejected none 7
      = (.ok (applyReviewSet "c1" .rejected none 7 pendingUnitAction, none),
         { pendingUnitState with actions := (updateWhereId pendingUnitState.actions "a1"
             (applyReviewSet "c1" .rejected none 7)) }) :=
  c3_reject_ignores_comment noHandlers pendingUnitState "a1" "c1" none 7
    pendingUnitAction rfl rfl (by decide)

/-- C4: the status lifecycle. (a) Every record persisted by
`createAction` starts `PENDING` and is appended as-is. (b) A
`reviewAction` call that fetches a non-`PENDING` row throws
`AlreadyDecidedError` and performs no write (state returned unchanged).
(c) Every successful `reviewAction` call (under the controller schema,
which admits only `approved`/`rejected` decisions) started from a
`PENDING` row and finalized it `APPROVED` or `REJECTED` — so status
transitions at most once, `PENDING → APPROVED` or
`PENDING → REJECTED`. -/
theorem c4_status_lifecycle :
    (∀ (P B R : Type) (handlers : HandlerMap P B R) (st : EngineState P B)
        (t : String) (p : P) (m : String) (now : Nat) (newId : String)
        (rec : WorkflowAction P) (st1 : EngineState P B),
        createAction handlers st t p m now newId = (.ok rec, st1) →
        rec.status = .pending ∧ st1.actions = st.actions ++ [rec])
    ∧ (∀ (P B R : Type) (handlers : HandlerMap P B R) (st : EngineState P B)
        (actionId checkerId : String) (status : ActionStatus) (rc : Option String)
        (now : Nat) (a : WorkflowAction P),
        findAction st.actions actionId = some a → a.status ≠ .pending →
        reviewAction (R := R) handlers st actionId checkerId status rc now
          = (.error (.alreadyDecided a.status), st))
    ∧ (∀ (P B R : Type) (handlers : HandlerMap P B R) (st : EngineState P B)
        (actionId checkerId : String) (status : ActionStatus) (rc : Option String)
        (now : Nat) (rec : WorkflowAction P) (res : Option R) (st1 : EngineState P B),
        reviewActionSchemaOk status checkerId = true →
        reviewAction handlers st actionId checkerId status rc now = (.ok (rec, res), st1) →
        ∃ a, findAction st.actions actionId = some a ∧ a.status = .pending ∧
          (rec.status = .approved ∨ rec.status = .rejected)) := by
  refine ⟨?_, ?_, ?_⟩
  · intro P B R handlers st t p m now newId rec st1 h
    obtain ⟨acts1, biz1⟩ := st1
    unfold createAction at h
    split at h
    · simp at h
    · split at h
      · simp at h
      · simp only [Prod.mk.injEq, Except.ok.injEq, EngineState.mk.injEq] at h
        obtain ⟨hrec, hacts, hbiz⟩ := h
        subst hrec
        exact ⟨rfl, hacts.symm⟩
  · intro P B R handlers st actionId checkerId status rc now a hfind hnp
    unfold reviewAction
    rw [hfind]
    simp [hnp]
  · intro P B R handlers st actionId checkerId status rc now rec res st1 hschema hrun
    obtain ⟨a, hfind, hpend, hself, hrec, hacts, hbr⟩ := reviewAction_ok_inv hrun
    have hs : status = .approved ∨ status = .rejected := by
      cases status <;> simp_all [reviewActionSchemaOk]
    refine ⟨a, hfind, hpend, ?_⟩
    subst hrec
    rcases hs with h | h
    · exact Or.inl (by rw [h]; rfl)
    · exact Or.inr (by rw [h]; rfl)

/-- C4 witness: (a) submitting the Scenario-A action yields a `PENDING`
record appended to the store; (b) re-reviewing the already-approved
action `a1` fails `AlreadyDecidedError` with the state unchanged; (c) a
successful concrete reject started from a pending row and ended
rejected. -/
theorem c4_status_lifecycle_witness :
    (samplePendingAction.status = .pending
      ∧ (⟨[samplePendingAction], []⟩ : EngineState CreateUserPayload (List User)).actions
          = emptyUserState.actions ++ [samplePendingAction])
    ∧ reviewAction (R := Unit) noHandlers decidedUnitState "a1" "c2" .approved none 3
        = (.error (.alreadyDecided .approved), decidedUnitState)
    ∧ (∃ a, findAction pendingUnitState.actions "a1" = some a ∧ a.status = .pending ∧
        ((applyReviewSet "c2" .rejected (some "no") 9 pendingUnitAction).status = .approved
          ∨ (applyReviewSet "c2" .rejected (some "no") 9 pendingUnitAction).status
              = .rejected)) :=
  ⟨c4_status_lifecycle.1 CreateUserPayload (List User) User sampleHandlers emptyUserState
      "create_user" sampleUserPayload "m1" 1 "a1" samplePendingAction
      ⟨[samplePendingAction], []⟩ rfl,
   c4_status_lifecycle.2.1 Unit Unit Unit noHandlers decidedUnitState "a1" "c2"
      .approved none 3 { pendingUnitAction with status := .approved, checkerId := some "c1" }
      rfl (by decide),
   c4_status_lifecycle.2.2 Unit Unit Unit noHandlers pendingUnitState "a1" "c2"
      .rejected (some "no") 9 (applyReviewSet "c2" .rejected (some "no") 9 pendingUnitAction)
      none ⟨updateWhereId pendingUnitState.actions "a1"
        (applyReviewSet "c2" .rejected (some "no") 9), ()⟩ (by decide) rfl⟩

/-- C5: a decide call by the maker on their own pending action fails
with `SelfReviewError` and writes nothing — the state comes back
exactly as it went in. -/
theorem c5_self_review_rejected {P B R : Type} (handlers : HandlerMap P B R)
    (st : EngineState P B) (actionId checkerId : String) (status : ActionStatus)
    (rc : Option String) (now : Nat) (a : WorkflowAction P)
    (hfind : findAction st.actions actionId = some a)
    (hpend : a.status = .pending)
    (hself : a.makerId = checkerId) :
    reviewAction (R := R) handlers st actionId checkerId status rc now
      = (.error .selfReview, st) := by
  unfold reviewAction
  rw [hfind]
  simp [hpend, hself]

/-- C5 witness: maker `m1` attempting to approve their own pending
action `a1`. -/
theorem c5_self_review_rejected_witness :
    reviewAction (R := Unit) noHandlers pendingUnitState "a1" "m1" .approved none 4
      = (.error .selfReview, pendingUnitState) :=
  c5_self_review_rejected noHandlers pendingUnitState "a1" "m1" .approved none 4
    pendingUnitAction rfl rfl rfl

/-- C6: the submission contract. (a) An unknown action type fails with
`UnknownActionTypeError` and nothing is persisted. (b) A payload the
payload refused by `validate` fails with `ValidationError` and nothing is
persisted. (c) Otherwise a `PENDING` record carrying the submitted
payload is appended and returned. (d) `createAction` never invokes the `execute`
of any handler: replacing every registered `execute` by an
arbitrary function changes nothing about submission. -/
theorem c6_submit_contract :
    (∀ (P B R : Type) (handlers : HandlerMap P B R) (st : EngineState P B)
        (t : String) (p : P) (m : String) (now : Nat) (newId : String) (err : WfError),
        getHandler handlers t = .error err →
        createAction handlers st t p m now newId = (.error err, st))
    ∧ (∀ (P B R : Type) (handlers : HandlerMap P B R) (st : EngineState P B)
        (t : String) (p : P) (m : String) (now : Nat) (newId : String)
        (handler : ActionHandler P B R) (msg : String),
        getHandler handlers t = .ok handler → handler.validate p = .error msg →
        createAction handlers st t p m now newId = (.error (.validationError msg), st))
    ∧ (∀ (P B R : Type) (handlers : HandlerMap P B R) (st : EngineState P B)
        (t : String) (p : P) (m : String) (now : Nat) (newId : String)
        (handler : ActionHandler P B R),
        getHandler handlers t = .ok handler → handler.validate p = .ok () →
        ∃ rec, createAction handlers st t p m now newId
            = (.ok rec, { st with actions := st.actions ++ [rec] })
          ∧ rec.status = .pending ∧ rec.actionType = t ∧ rec.payload = p ∧ rec.makerId = m)
    ∧ (∀ (P B R : Type) (handlers : HandlerMap P B R) (st : EngineState P B)
        (t : String) (p : P) (m : String) (now : Nat) (newId : String)
        (f : String → B → P → Except String (R × B)),
        createAction (handlers.map (fun e => (e.1,
            { validate := e.2.validate, execute := f e.1 }))) st t p m now newId
          = createAction handlers st t p m now newId) := by
  refine ⟨?_, ?_, ?_, ?_⟩
  · intro P B R handlers st t p m now newId err hget
    unfold createAction
    rw [hget]
  · intro P B R handlers st t p m now newId handler msg hget hval
    simp [createAction, hget, hval]
  · intro P B R handlers st t p m now newId handler hget hval
    exact ⟨⟨newId, t, .pending, p, m, none, none, none, now, now⟩,
      by simp [createAction, hget, hval], rfl, rfl, rfl, rfl⟩
  · intro P B R handlers st t p m now newId f
    unfold createAction getHandler
    rw [find?_map_handlers]
    cases hfind : handlers.find? (fun e => e.1 = t) with
    | none => rfl
    | some e =>
      cases hv : e.2.validate p <;> simp [hv]

/-- C6 witness: Scenario C (`unknown_type` fails with no record), a
rejecting validate fails with no record, a valid submission appends the
pending record, and submission is blind to `execute`. -/
theorem c6_submit_contract_witness :
    createAction sampleHandlers emptyUserState "unknown_type" sampleUserPayload "m1" 1 "x1"
        = (.error (.unknownActionType "unknown_type"), emptyUserState)
    ∧ createAction rejectingHandlers emptyUserState "create_user" sampleUserPayload "m1" 1 "x1"
        = (.error (.validationError "Validation failed"), emptyUserState)
    ∧ (∃ rec, createAction sampleHandlers emptyUserState "create_user" sampleUserPayload
            "m1" 1 "a1"
          = (.ok rec, { emptyUserState with actions := emptyUserState.actions ++ [rec] })
        ∧ rec.status = .pending ∧ rec.actionType = "create_user"
        ∧ rec.payload = sampleUserPayload ∧ rec.makerId = "m1")
    ∧ createAction (sampleHandlers.map (fun e => (e.1,
          ({ validate := e.2.validate, execute := fun _ _ => .error "unused" }
            : ActionHandler CreateUserPayload (List User) User))))
        emptyUserState "create_user" sampleUserPayload "m1" 1 "a1"
        = createAction sampleHandlers emptyUserState "create_user" sampleUserPayload
            "m1" 1 "a1" :=
  ⟨c6_submit_contract.1 CreateUserPayload (List User) User sampleHandlers emptyUserState
      "unknown_type" sampleUserPayload "m1" 1 "x1" (.unknownActionType "unknown_type") rfl,
   c6_submit_contract.2.1 CreateUserPayload (List User) User rejectingHandlers emptyUserState
      "create_user" sampleUserPayload "m1" 1 "x1"
      (createUserHandler (fun _ => .error "Validation failed")) "Validation failed" rfl rfl,
   c6_submit_contract.2.2.1 CreateUserPayload (List User) User sampleHandlers emptyUserState
      "create_user" sampleUserPayload "m1" 1 "a1"
      (createUserHandler (fun _ => .ok ())) rfl rfl,
   c6_submit_contract.2.2.2 CreateUserPayload (List User) User sampleHandlers emptyUserState
      "create_user" sampleUserPayload "m1" 1 "a1" (fun _ _ _ => .error "unused")⟩

/-- C7: the frame of a successful decision. The returned record is the
fetched record with ONLY `status`, `checkerId`, `reviewComment`,
`reviewedAt`, `updatedAt` rewritten — `id`, `actionType`, `payload`,
`makerId`, `createdAt` are preserved — the actions table changes only by
that id-keyed set-clause, and on approval `execute`
received exactly the stored payload of the fetched record. -/
theorem c7_review_frame {P B R : Type} (handlers : HandlerMap P B R)
    (st : EngineState P B) (actionId checkerId : String) (status : ActionStatus)
    (rc : Option String) (now : Nat) (a rec : WorkflowAction P) (res : Option R)
    (st1 : EngineState P B)
    (hfind : findAction st.actions actionId = some a)
    (hrun : reviewAction handlers st actionId checkerId status rc now
      = (.ok (rec, res), st1)) :
    rec.id = a.id ∧ rec.actionType = a.actionType ∧ rec.payload = a.payload
      ∧ rec.makerId = a.makerId ∧ rec.createdAt = a.createdAt
      ∧ rec.status = status ∧ rec.checkerId = some checkerId ∧ rec.reviewComment = rc
      ∧ rec.reviewedAt = some now ∧ rec.updatedAt = now
      ∧ st1.actions = updateWhereId st.actions actionId
          (applyReviewSet checkerId status rc now)
      ∧ (status = .approved → ∃ handler r, getHandler handlers a.actionType = .ok handler
          ∧ res = some r ∧ handler.execute st.biz a.payload = .ok (r, st1.biz)) := by
  obtain ⟨b, hfind2, hpend, hself, hrec, hacts, hbr⟩ := reviewAction_ok_inv hrun
  rw [hfind] at hfind2
  obtain rfl : a = b := by injection hfind2
  subst hrec
  refine ⟨rfl, rfl, rfl, rfl, rfl, rfl, rfl, rfl, rfl, rfl, hacts, ?_⟩
  intro happ
  rcases hbr with ⟨_, handler, r, hget, hres, hex⟩ | ⟨hne, _, _⟩
  · exact ⟨handler, r, hget, hres, hex⟩
  · exact absurd happ hne

/-- C7 witness: approving the Scenario-A pending action over an empty
users table — `execute` ran on the stored payload and inserted the
user. -/
theorem c7_review_frame_witness :
    (applyReviewSet "c1" .approved (some "ok") 2 samplePendingAction).payload
        = samplePendingAction.payload
      ∧ (∃ handler r,
          getHandler sampleHandlers samplePendingAction.actionType = .ok handler
          ∧ (some sampleCreatedUser : Option User) = some r
          ∧ handler.execute pendingUserState.biz samplePendingAction.payload
              = .ok (r, (⟨updateWhereId pendingUserState.actions "a1"
                  (applyReviewSet "c1" .approved (some "ok") 2),
                  [sampleCreatedUser]⟩ : EngineState CreateUserPayload (List User)).biz)) :=
  have h := c7_review_frame sampleHandlers pendingUserState "a1" "c1" .approved
    (some "ok") 2 samplePendingAction
    (applyReviewSet "c1" .approved (some "ok") 2 samplePendingAction)
    (some sampleCreatedUser)
    ⟨updateWhereId pendingUserState.actions "a1"
      (applyReviewSet "c1" .approved (some "ok") 2), [sampleCreatedUser]⟩
    rfl rfl
  ⟨h.2.2.1, h.2.2.2.2.2.2.2.2.2.2.2 rfl⟩

/-- C8: `CreatePromotionHandler.validate` is pure (it takes only the
payload and returns only a verdict) and fails exactly when the zod
schema is violated or a cross-field rule is: the end date is not
strictly after the start date, the discount is a percentage outside
`[0, 100]`, or a negative fixed discount; otherwise it succeeds. Holds
for every interpretation of the datetime check, date parse and float
parse. -/
theorem c8_promotion_validate_iff (J : JsPrims) (p : CreatePromotionPayload) :
    (∃ msg, createPromotionValidate J p = .error msg) ↔
      (createPromotionSchemaOk J p = false
        ∨ J.parseDate p.endDate ≤ J.parseDate p.startDate
        ∨ (p.discountType = "percentage"
            ∧ (J.parseFloat p.discountValue < 0 ∨ 100 < J.parseFloat p.discountValue))
        ∨ (p.discountType = "fixed" ∧ J.parseFloat p.discountValue < 0)) := by
  unfold createPromotionValidate
  cases hs : createPromotionSchemaOk J p
  · simp [hs]
  · by_cases hd : J.parseDate p.endDate ≤ J.parseDate p.startDate
    · simp [hs, hd]
    · by_cases hp : p.discountType = "percentage"
        ∧ (J.parseFloat p.discountValue < 0 ∨ 100 < J.parseFloat p.discountValue)
      · have hpb : (p.discountType == "percentage"
            && (decide (J.parseFloat p.discountValue < 0)
              || decide (100 < J.parseFloat p.discountValue))) = true := by
          simp [hp.1]
          tauto
        simp [hs, hd, hpb, hp]
      · have hpb : (p.discountType == "percentage"
            && (decide (J.parseFloat p.discountValue < 0)
              || decide (100 < J.parseFloat p.discountValue))) = false := by
          rw [Bool.and_eq_false_iff]
          by_cases ht : p.discountType = "percentage"
          · refine Or.inr ?_
            rw [Bool.or_eq_false_iff]
            constructor <;> rw [decide_eq_false_iff_not] <;> intro hv <;>
              exact hp ⟨ht, by tauto⟩
          · exact Or.inl (by simpa using ht)
        by_cases hf : p.discountType = "fixed" ∧ J.parseFloat p.discountValue < 0
        · have hfb : (p.discountType == "fixed"
              && decide (J.parseFloat p.discountValue < 0)) = true := by
            simp [hf.1, hf.2]
          simp [hs, hd, hpb, hfb, hf]
        · have hfb : (p.discountType == "fixed"
              && decide (J.parseFloat p.discountValue < 0)) = false := by
            rw [Bool.and_eq_false_iff]
            by_cases ht : p.discountType = "fixed"
            · refine Or.inr ?_
              rw [decide_eq_false_iff_not]
              intro hv
              exact hf ⟨ht, hv⟩
            · exact Or.inl (by simpa using ht)
          simp only [hs, Bool.not_true, Bool.false_eq_true, if_false, hd, hpb, hfb]
          constructor
          · rintro ⟨msg, hmsg⟩
            simp at hmsg
          · rintro (h | h | h | h)
            · cases h
            · exact h.elim
            · exact (hp h).elim
            · exact (hf h).elim

/-- C9: every user inserted by `CreateUserHandler.execute` carries the
one hard-coded bcrypt `password` hash, whatever the payload says — all
users created through the workflow share the same default password. The
profile fields come from the payload and the row is appended to the
users table. -/
theorem c9_create_user_default_password (db : List User) (p : CreateUserPayload)
    (u : User) (db2 : List User)
    (hex : createUserExecute db p = .ok (u, db2)) :
    u.password = defaultPasswordHash ∧ u.email = p.email ∧ u.username = p.username
      ∧ u.fullName = p.fullName ∧ db2 = db ++ [u] := by
  unfold createUserExecute at hex
  split at hex
  · simp at hex
  · split at hex
    · simp at hex
    · simp only [Except.ok.injEq, Prod.mk.injEq] at hex
      obtain ⟨hu, hdb⟩ := hex
      subst hu
      exact ⟨rfl, rfl, rfl, rfl, hdb.symm⟩

/-- C9 witness: executing the Scenario-A payload against an empty users
table inserts `alice` with the default password hash. -/
theorem c9_create_user_default_password_witness :
    sampleCreatedUser.password = defaultPasswordHash
      ∧ sampleCreatedUser.email = sampleUserPayload.email
      ∧ sampleCreatedUser.username = sampleUserPayload.username
      ∧ sampleCreatedUser.fullName = sampleUserPayload.fullName
      ∧ [sampleCreatedUser] = [] ++ [sampleCreatedUser] :=
  c9_create_user_default_password [] sampleUserPayload sampleCreatedUser
    [sampleCreatedUser] rfl

/-- C10: the handler registry is a last-write-wins mutable map shared by
every service instance. After `registerHandler(t, h)`: `getHandler(t)`
returns `h` whatever was bound before (silently overwriting a previous
binding, as the double-registration conjunct shows), `t` is among
`getAllActionTypes()`, and every `WorkflowService` call resolving `t`
observes `h` — submission behaves exactly as with a registry holding
only `(t, h)`. -/
theorem c10_registry_last_write_wins :
    ∀ (P B R : Type) (m : HandlerMap P B R) (t : String) (h : ActionHandler P B R),
      getHandler (registerHandler m t h) t = .ok h
      ∧ t ∈ getAllActionTypes (registerHandler m t h)
      ∧ (∀ h0, getHandler (registerHandler (registerHandler m t h0) t h) t = .ok h)
      ∧ (∀ (st : EngineState P B) (p : P) (mk : String) (now : Nat) (newId : String),
          createAction (registerHandler m t h) st t p mk now newId
            = createAction [(t, h)] st t p mk now newId) := by
  intro P B R m t h
  refine ⟨?_, ?_, ?_, ?_⟩
  · unfold getHandler
    rw [find?_registerHandler]
  · exact List.mem_map.mpr ⟨(t, h), List.mem_of_find?_eq_some (find?_registerHandler m t h),
      rfl⟩
  · intro h0
    unfold getHandler
    rw [find?_registerHandler]
  · intro st p mk now newId
    unfold createAction getHandler
    rw [find?_registerHandler]
    simp [List.find?]

end CentralWorkflow
